import Mathlib

/-
Verification of the rust-microbit-rtic-display application (src/main.rs)
against its design description.  Strings of the embedded `heapless`
library are modelled as lists of characters, with the list length playing
the role of the byte length (every string the program handles is ASCII).
Machine integers (`u32` counters) are modelled as `Nat`; where the 32-bit
range matters it appears as an explicit hypothesis `n < 2 ^ 32`.
-/

namespace RticDisplay

/-- One `push_str` call on a capacity-`N` heapless string: it fails exactly
when the new total length would exceed the capacity, and otherwise appends. -/
def push_str (N : Nat) (s x : List Char) : Except Unit (List Char) :=
  if N < s.length + x.length then Except.error () else Except.ok (s ++ x)

/-- The loop of `compose_string`: fold `push_str` over the input slices,
threading the accumulator, with early exit on error (the Rust `?` operator). -/
def compose_go (N : Nat) : List (List Char) → List Char → Except Unit (List Char)
  | [], s => Except.ok s
  | x :: xs, s =>
      match push_str N s x with
      | Except.error () => Except.error ()
      | Except.ok s1 => compose_go N xs s1

/-- `fn compose_string<const N : usize>(xs : &[&str]) -> Result<String<N>, ()>`:
start from the empty string and push every input slice in order. -/
def compose_string (N : Nat) (xs : List (List Char)) : Except Unit (List Char) :=
  compose_go N xs []

lemma compose_go_ok (N : Nat) :
    ∀ (xs : List (List Char)) (s : List Char),
      s.length + (xs.map List.length).sum ≤ N →
      compose_go N xs s = Except.ok (s ++ xs.flatten)
  | [], s, _ => by simp [compose_go]
  | x :: xs, s, h => by
      have hsum : s.length + x.length + (xs.map List.length).sum ≤ N := by
        simp only [List.map_cons, List.sum_cons] at h
        omega
      have hx : ¬ N < s.length + x.length := by omega
      have ih := compose_go_ok N xs (s ++ x)
        (by simpa [List.length_append] using hsum)
      simp [compose_go, push_str, hx, ih, List.flatten]

lemma compose_go_err (N : Nat) :
    ∀ (xs : List (List Char)) (s : List Char),
      s.length ≤ N →
      N < s.length + (xs.map List.length).sum →
      compose_go N xs s = Except.error ()
  | [], s, hs, h => by
      simp only [List.map_nil, List.sum_nil] at h
      omega
  | x :: xs, s, hs, h => by
      by_cases hx : N < s.length + x.length
      · simp [compose_go, push_str, hx]
      · have ih := compose_go_err N xs (s ++ x)
          (by simp [List.length_append]; omega)
          (by simp only [List.map_cons, List.sum_cons] at h
              simp [List.length_append]; omega)
        simp [compose_go, push_str, hx, ih]

/-- Claim C1: for every slice of input strings whose concatenated length is at
most the capacity `N`, `compose_string` returns `Ok` of the exact in-order
concatenation of the inputs; for every slice whose concatenated length exceeds
`N` it returns the buffer-overflow error deterministically, with no partial
output. -/
theorem compose_string_spec (N : Nat) (xs : List (List Char)) :
    ((xs.map List.length).sum ≤ N → compose_string N xs = Except.ok xs.flatten) ∧
    (N < (xs.map List.length).sum → compose_string N xs = Except.error ()) := by
  constructor
  · intro h
    simpa [compose_string] using compose_go_ok N xs [] (by simpa using h)
  · intro h
    exact compose_go_err N xs [] (by simp) (by simpa using h)

theorem compose_string_spec_witness :
    compose_string 5 ["ab".toList, "cd".toList] =
      Except.ok (["ab".toList, "cd".toList].flatten) ∧
    compose_string 3 ["ab".toList, "cd".toList] = Except.error () :=
  ⟨(compose_string_spec 5 ["ab".toList, "cd".toList]).1 (by decide),
   (compose_string_spec 3 ["ab".toList, "cd".toList]).2 (by decide)⟩

/-- A 5x5 LED frame: the entry at `(i, j)` is `leds[i][j]` in the source,
i.e. row `i`, column `j` of the display image. -/
def Frame : Type := Fin 5 → Fin 5 → Nat

instance : DecidableEq Frame :=
  inferInstanceAs (DecidableEq (Fin 5 → Fin 5 → Nat))

/-- `let leds_empty = [[0; 5]; 5]`. -/
def leds_empty : Frame := fun _ _ => 0

/-- The array assignment `leds[x][y] = 1`. -/
def setLed (leds : Frame) (x y : Fin 5) : Frame :=
  fun i j => if i = x ∧ j = y then 1 else leds i j

/-- The loop index range `0..5`. -/
def range5 : List (Fin 5) := [0, 1, 2, 3, 4]

/-- Observable actions of the program: messages to the diagnostic sink and
`display.show(timer, leds, ms)` calls. -/
inductive Effect where
  | logMsg (s : String)
  | logCount (s : String) (n : Nat)
  | frameShown (f : Frame) (ms : Nat)

/-- The frames shown (with their durations) by one run of `button_a_action`:
for `x in 0..5`, set `leds[x][y] = 1` for `y in 0..5`, show the frame for
400 ms, then reset `leds` to `leds_empty` before the next iteration. -/
def button_a_frames : List (Frame × Nat) :=
  (range5.foldl
    (fun (acc : Frame × List (Frame × Nat)) x =>
      let leds := range5.foldl (fun l y => setLed l x y) acc.1
      (leds_empty, acc.2 ++ [(leds, 400)]))
    (leds_empty, [])).2

/-- The frames shown by one run of `button_b_action`: for `x in 0..5`, set
`leds[y][x] = 1` for `y in 0..5`, show for 400 ms, then reset. -/
def button_b_frames : List (Frame × Nat) :=
  (range5.foldl
    (fun (acc : Frame × List (Frame × Nat)) x =>
      let leds := range5.foldl (fun l y => setLed l y x) acc.1
      (leds_empty, acc.2 ++ [(leds, 400)]))
    (leds_empty, [])).2

/-- `let led_states = [ (1,1), (1,2), (1,3), (2,3), (3,3), (3,2), (3,1), (2,1) ]`. -/
def led_states : List (Fin 5 × Fin 5) :=
  [(1, 1), (1, 2), (1, 3), (2, 3), (3, 3), (3, 2), (3, 1), (2, 1)]

/-- The frames shown by one traversal of the idle loop's `for (x,y) in
led_states` body: set `leds[x][y] = 1`, show for 250 ms, reset. -/
def idle_cycle_frames : List (Frame × Nat) :=
  (led_states.foldl
    (fun (acc : Frame × List (Frame × Nat)) p =>
      let leds := setLed acc.1 p.1 p.2
      (leds_empty, acc.2 ++ [(leds, 250)]))
    (leds_empty, [])).2

/-- The program state visible across tasks: the `#[local]` counters, the two
GPIOTE channel event flags, the single pending-instance slot of each software
task, the shared `key`, and the display/timer peripherals (modelled as the
history of shown frames and the total milliseconds delayed). -/
structure SysState where
  button_pressed : Nat
  button_a : Nat
  button_b : Nat
  idle_count : Nat
  chan0_triggered : Bool
  chan1_triggered : Bool
  slotA : Bool
  slotB : Bool
  key : List Char
  display : List (Frame × Nat)
  timer : Nat

/-- `fn button_pressed(ctx)` — the GPIOTE interrupt handler: bump the local
invocation counter and log it; for each triggered channel, log the press,
reset the channel's events, and try to spawn the associated task, logging
"failed to spawn task!" when its pending slot is already occupied. -/
def button_pressed (s : SysState) : SysState × List Effect :=
  let cnt := s.button_pressed + 1
  let s1 : SysState := { s with button_pressed := cnt }
  let r0 :=
    if s1.chan0_triggered then
      let s2 : SysState := { s1 with chan0_triggered := false }
      if s2.slotA then
        (s2, [Effect.logMsg "Button A pressed", Effect.logMsg "failed to spawn task!"])
      else
        ({ s2 with slotA := true }, [Effect.logMsg "Button A pressed"])
    else (s1, ([] : List Effect))
  let r1 :=
    if r0.1.chan1_triggered then
      let s3 : SysState := { r0.1 with chan1_triggered := false }
      if s3.slotB then
        (s3, [Effect.logMsg "Button B pressed", Effect.logMsg "failed to spawn task!"])
      else
        ({ s3 with slotB := true }, [Effect.logMsg "Button B pressed"])
    else (r0.1, ([] : List Effect))
  (r1.1, Effect.logCount "button pressed count: " cnt :: (r0.2 ++ r1.2))

/-- `async fn button_a_action`: dispatched from its pending slot, bump the
local counter, log it, and show the five frames on the locked display. -/
def run_button_a (s : SysState) : SysState × List Effect :=
  let c := s.button_a + 1
  ({ s with button_a := c, slotA := false,
            display := s.display ++ button_a_frames,
            timer := s.timer + (button_a_frames.map Prod.snd).sum },
   Effect.logCount "Task A count: " c ::
     button_a_frames.map (fun p => Effect.frameShown p.1 p.2))

/-- `async fn button_b_action`: dispatched from its pending slot, bump the
local counter, log it, and show the five frames on the locked display. -/
def run_button_b (s : SysState) : SysState × List Effect :=
  let c := s.button_b + 1
  ({ s with button_b := c, slotB := false,
            display := s.display ++ button_b_frames,
            timer := s.timer + (button_b_frames.map Prod.snd).sum },
   Effect.logCount "Task B count: " c ::
     button_b_frames.map (fun p => Effect.frameShown p.1 p.2))

/-- One iteration of the idle loop's `loop` body: show the eight frames of
`led_states`, then increment the idle counter and log it. -/
def idle_cycle (s : SysState) : SysState × List Effect :=
  let c := s.idle_count + 1
  ({ s with idle_count := c,
            display := s.display ++ idle_cycle_frames,
            timer := s.timer + (idle_cycle_frames.map Prod.snd).sum },
   idle_cycle_frames.map (fun p => Effect.frameShown p.1 p.2) ++
     [Effect.logCount "Idle count: " c])

/-- The state produced by `init`: all counters zero, no events, empty slots,
`key : String<32> = String::from("hello")`, peripherals fresh. -/
def init_state : SysState :=
  { button_pressed := 0, button_a := 0, button_b := 0, idle_count := 0,
    chan0_triggered := false, chan1_triggered := false,
    slotA := false, slotB := false,
    key := "hello".toList, display := [], timer := 0 }

/-- The `display.show` calls contained in a list of effects. -/
def showsOf : List Effect → List (Frame × Nat)
  | [] => []
  | Effect.frameShown f ms :: es => (f, ms) :: showsOf es
  | Effect.logMsg _ :: es => showsOf es
  | Effect.logCount _ _ :: es => showsOf es

lemma showsOf_map_frameShown (l : List (Frame × Nat)) :
    showsOf (l.map fun p => Effect.frameShown p.1 p.2) = l := by
  induction l with
  | nil => rfl
  | cons p l ih => simp [showsOf, ih]

/-- A frame that lights exactly row `x`: cells `(x,0)` through `(x,4)`. -/
def rowFrame (x : Fin 5) : Frame := fun i _ => if i = x then 1 else 0

/-- A frame that lights exactly column `x`: cells `(0,x)` through `(4,x)`. -/
def colFrame (x : Fin 5) : Frame := fun _ j => if j = x then 1 else 0

/-- Claim C2 as stated is false on the code: the first frame rendered by
`button_a_action` does not light a full column — the source writes
`leds[x][y] = 1` for all `y`, which lights the full row `x`. -/
theorem button_a_first_frame_not_column :
    ¬ ∃ j : Fin 5, ∀ i k : Fin 5,
        (button_a_frames.getD 0 (leds_empty, 0)).1 i k =
          (if k = j then 1 else 0) := by decide

/-- Claim C2 (amended: "column" must read "row"): one activation of
`button_a_action` renders exactly 5 sequential frames, frame `i` lighting one
full row (the cells `(i,0)` through `(i,4)`), with the grid cleared back to
all-zeros before the next frame, each frame shown for the same fixed 400 ms
duration. -/
theorem button_a_action_frames (s : SysState) :
    showsOf (run_button_a s).2 = range5.map (fun x => (rowFrame x, 400)) := by
  simp only [run_button_a, showsOf, showsOf_map_frameShown]
  decide

/-- Claim C10: one activation of `button_b_action` bumps the task counter by
exactly one and renders exactly 5 sequential frames, frame `x` lighting
exactly the cells `(0,x)` through `(4,x)` — one full column — with the grid
reset to all-zeros between frames, each frame shown for 400 time units. -/
theorem button_b_action_spec (s : SysState) :
    (run_button_b s).1.button_b = s.button_b + 1 ∧
    showsOf (run_button_b s).2 = range5.map (fun x => (colFrame x, 400)) := by
  refine ⟨rfl, ?_⟩
  simp only [run_button_b, showsOf, showsOf_map_frameShown]
  decide

lemma showsOf_append (a b : List Effect) :
    showsOf (a ++ b) = showsOf a ++ showsOf b := by
  induction a with
  | nil => rfl
  | cons e a ih => cases e <;> simp [showsOf, ih]

/-- Claim C6: every invocation of the interrupt handler increments the
handler-invocation diagnostic counter by exactly one and touches only that
counter, the channel event flags and the per-task pending slots; the display,
timer and key are left unchanged and no display/timer operation is performed
(the emitted effects contain no `show` call). -/
theorem handler_frame_conditions (s : SysState) :
    (button_pressed s).1.button_pressed = s.button_pressed + 1 ∧
    (button_pressed s).1.display = s.display ∧
    (button_pressed s).1.timer = s.timer ∧
    (button_pressed s).1.key = s.key ∧
    (button_pressed s).1.button_a = s.button_a ∧
    (button_pressed s).1.button_b = s.button_b ∧
    (button_pressed s).1.idle_count = s.idle_count ∧
    (button_pressed s).1.chan0_triggered = false ∧
    (button_pressed s).1.chan1_triggered = false ∧
    (button_pressed s).1.slotA = (s.slotA || s.chan0_triggered) ∧
    (button_pressed s).1.slotB = (s.slotB || s.chan1_triggered) ∧
    showsOf (button_pressed s).2 = [] := by
  rcases s with ⟨bp, ba, bb, ic, c0, c1, sa, sb, k, d, t⟩
  cases c0 <;> cases c1 <;> cases sa <;> cases sb <;>
    simp [button_pressed, showsOf]

/-- Claim C3: whenever the handler finds a triggered channel whose task slot
is already occupied, it logs the spawn failure and drops the event: the event
flag is still cleared, the slot keeps its single pending instance (no new
activation is queued), and the running instance's counter, the display and the
timer are untouched — the handler returns normally. -/
theorem spawn_failure_dropped (s : SysState) :
    (s.chan0_triggered = true → s.slotA = true →
      (button_pressed s).1.chan0_triggered = false ∧
      (button_pressed s).1.slotA = true ∧
      Effect.logMsg "failed to spawn task!" ∈ (button_pressed s).2 ∧
      (button_pressed s).1.button_a = s.button_a ∧
      (button_pressed s).1.display = s.display ∧
      (button_pressed s).1.timer = s.timer) ∧
    (s.chan1_triggered = true → s.slotB = true →
      (button_pressed s).1.chan1_triggered = false ∧
      (button_pressed s).1.slotB = true ∧
      Effect.logMsg "failed to spawn task!" ∈ (button_pressed s).2 ∧
      (button_pressed s).1.button_b = s.button_b ∧
      (button_pressed s).1.display = s.display ∧
      (button_pressed s).1.timer = s.timer) := by
  rcases s with ⟨bp, ba, bb, ic, c0, c1, sa, sb, k, d, t⟩
  cases c0 <;> cases c1 <;> cases sa <;> cases sb <;>
    simp [button_pressed]

theorem spawn_failure_dropped_witness :
    (let s : SysState :=
      { init_state with chan0_triggered := true, slotA := true }
     s.chan0_triggered = true ∧ s.slotA = true ∧
     (button_pressed s).1.chan0_triggered = false ∧
     (button_pressed s).1.slotA = true ∧
     Effect.logMsg "failed to spawn task!" ∈ (button_pressed s).2 ∧
     (button_pressed s).1.button_a = s.button_a ∧
     (button_pressed s).1.display = s.display ∧
     (button_pressed s).1.timer = s.timer) := by
  have h := (spawn_failure_dropped
    { init_state with chan0_triggered := true, slotA := true }).1 rfl rfl
  exact ⟨rfl, rfl, h.1, h.2.1, h.2.2.1, h.2.2.2.1, h.2.2.2.2.1, h.2.2.2.2.2⟩

/-- All 5x5 cell coordinates. -/
def allCells : List (Fin 5 × Fin 5) :=
  (range5.map (fun i => range5.map (fun j => (i, j)))).flatten

/-- The cells of a frame that are lit (non-zero). -/
def litCells (f : Frame) : List (Fin 5 × Fin 5) :=
  allCells.filter (fun p => f p.1 p.2 != 0)

/-- Iterating the idle loop body a given number of times. -/
def idleIter : Nat → SysState → SysState
  | 0, s => s
  | n + 1, s => idleIter n (idle_cycle s).1

/-- Claim C4: the idle animation traverses a fixed sequence of exactly eight
step positions; each traversal renders exactly those eight frames, every
rendered frame lights exactly one cell (the grid having been cleared before
the step) and is shown for 250 ms; and the idle-cycle counter increases by
exactly 1 per full traversal, for an unbounded run. -/
theorem idle_animation_spec :
    led_states.length = 8 ∧
    idle_cycle_frames.length = 8 ∧
    (∀ s : SysState, showsOf (idle_cycle s).2 = idle_cycle_frames) ∧
    (idle_cycle_frames.all fun p =>
      ((litCells p.1).length == 1) && (p.2 == 250)) = true ∧
    (∀ (n : Nat) (s : SysState),
      (idleIter n s).idle_count = s.idle_count + n) := by
  refine ⟨rfl, by decide, ?_, by decide, ?_⟩
  · intro s
    simp only [idle_cycle, showsOf_append, showsOf, showsOf_map_frameShown]
    decide
  · intro n
    induction n with
    | zero => intro s; simp [idleIter]
    | succ n ih =>
        intro s
        have h := ih (idle_cycle s).1
        simp only [idleIter] at h ⊢
        rw [h]
        simp [idle_cycle]
        omega

/-- Control state of the idle function: either still inside its infinite
loop, or returned from it.  The loop body of the source contains no break
and no return, which is what the step function below embeds. -/
inductive IdleCtl where
  | inLoop (s : SysState)
  | returned

/-- One iteration of the idle loop viewed as a control-flow step. -/
def idle_step : IdleCtl → IdleCtl
  | IdleCtl.inLoop s => IdleCtl.inLoop (idle_cycle s).1
  | IdleCtl.returned => IdleCtl.returned

def idleCtlIter : Nat → IdleCtl → IdleCtl
  | 0, c => c
  | n + 1, c => idleCtlIter n (idle_step c)

/-- Claim C5: the idle function never returns — after any number of executed
loop iterations, control is still inside the idle loop. -/
theorem idle_never_returns (n : Nat) (s : SysState) :
    idleCtlIter n (IdleCtl.inLoop s) ≠ IdleCtl.returned := by
  induction n generalizing s with
  | zero => exact fun h => IdleCtl.noConfusion h
  | succ n ih => simpa [idleCtlIter, idle_step] using ih (idle_cycle s).1

/-- The transitions of the whole application: a hardware edge sets a channel
flag, the GPIOTE handler runs, a pending task is dispatched, or the idle loop
runs one iteration. -/
inductive SysStep : SysState → SysState → Prop where
  | edge0 (s : SysState) : SysStep s { s with chan0_triggered := true }
  | edge1 (s : SysState) : SysStep s { s with chan1_triggered := true }
  | handler (s : SysState) : SysStep s (button_pressed s).1
  | taskA (s : SysState) : s.slotA = true → SysStep s (run_button_a s).1
  | taskB (s : SysState) : s.slotB = true → SysStep s (run_button_b s).1
  | idleStep (s : SysState) : SysStep s (idle_cycle s).1

/-- States reachable from the state established by `init`. -/
inductive SysReach : SysState → Prop where
  | init : SysReach init_state
  | step {s s' : SysState} : SysReach s → SysStep s s' → SysReach s'

/-- The idle loop's unlocked read of the shared key:
`compose_string::<32>(&["The key is: ", ctx.shared.key.as_str()])`. -/
def key_message (s : SysState) : Except Unit (List Char) :=
  compose_string 32 ["The key is: ".toList, s.key]

lemma button_pressed_key (s : SysState) :
    (button_pressed s).1.key = s.key := by
  rcases s with ⟨bp, ba, bb, ic, c0, c1, sa, sb, k, d, t⟩
  cases c0 <;> cases c1 <;> cases sa <;> cases sb <;> simp [button_pressed]

lemma sysStep_key {s s' : SysState} (h : SysStep s s') : s'.key = s.key := by
  cases h with
  | edge0 => rfl
  | edge1 => rfl
  | handler => exact button_pressed_key s
  | taskA _ => rfl
  | taskB _ => rfl
  | idleStep => rfl

/-- Claim C8: the shared `key` is written exactly once, at initialization:
no transition of the system mutates it, every reachable state carries the
value set by `init`, and the idle loop's unlocked read through the immutable
reference composes exactly "The key is: hello". -/
theorem key_write_once :
    (∀ s s' : SysState, SysStep s s' → s'.key = s.key) ∧
    (∀ s : SysState, SysReach s →
      s.key = "hello".toList ∧
      key_message s = Except.ok ("The key is: hello".toList)) := by
  refine ⟨fun s s' h => sysStep_key h, ?_⟩
  intro s hs
  have hk : s.key = "hello".toList := by
    induction hs with
    | init => rfl
    | step _ hst ih => rw [sysStep_key hst, ih]
  refine ⟨hk, ?_⟩
  rw [key_message, hk]
  rfl

theorem key_write_once_witness :
    (({ init_state with chan0_triggered := true } : SysState).key =
      init_state.key) ∧
    init_state.key = "hello".toList ∧
    key_message init_state = Except.ok ("The key is: hello".toList) :=
  ⟨key_write_once.1 init_state { init_state with chan0_triggered := true }
      (SysStep.edge0 init_state),
   key_write_once.2 init_state SysReach.init⟩

/-- The decimal digits of a number, most significant first, computed with
structural fuel (the fuel `n + 1` always suffices). -/
def toDecimalGo : Nat → Nat → List Char
  | 0, _ => []
  | fuel + 1, n =>
      if n < 10 then [Nat.digitChar n]
      else toDecimalGo fuel (n / 10) ++ [Nat.digitChar (n % 10)]

/-- The decimal rendering of a `u32` produced by core fmt for `write!`. -/
def toDecimal (n : Nat) : List Char := toDecimalGo (n + 1) n

/-- `write!(&mut s, ..., count)` into the fresh `String::<10>`: the write
fails exactly when the rendered digits do not fit the capacity 10. -/
def write_u32 (n : Nat) : Except Unit (List Char) :=
  if 10 < (toDecimal n).length then Except.error () else Except.ok (toDecimal n)

/-- `fn log_count(message : &str, count : u32)`: render the count into a
`String<10>`, compose `[message, digits]` into a `String<32>`, and print the
result; `none` models a panic of either `unwrap`. -/
def log_count (message : List Char) (count : Nat) : Option (List Char) :=
  match write_u32 count with
  | Except.error () => none
  | Except.ok s =>
      match compose_string 32 [message, s] with
      | Except.error () => none
      | Except.ok m => some m

/-- The four message arguments `log_count` is called with in the program. -/
def log_count_messages : List (List Char) :=
  ["button pressed count: ".toList, "Task A count: ".toList,
   "Task B count: ".toList, "Idle count: ".toList]

lemma toDecimalGo_length :
    ∀ (fuel n k : Nat), n < fuel → 1 ≤ k → n < 10 ^ k →
      (toDecimalGo fuel n).length ≤ k := by
  intro fuel
  induction fuel with
  | zero => intro n k hn _ _; omega
  | succ fuel ih =>
      intro n k hn hk hpow
      by_cases h10 : n < 10
      · simp [toDecimalGo, h10]
        omega
      · have hk2 : 2 ≤ k := by
          by_contra hcon
          have hk1 : k = 1 := by omega
          subst hk1
          simp [pow_one] at hpow
          omega
        have hmul : 10 ^ (k - 1) * 10 = 10 ^ k := by
          have hks : k - 1 + 1 = k := by omega
          calc 10 ^ (k - 1) * 10 = 10 ^ (k - 1 + 1) := by rw [pow_succ]
            _ = 10 ^ k := by rw [hks]
        have hdiv : n / 10 < 10 ^ (k - 1) :=
          (Nat.div_lt_iff_lt_mul (by omega)).mpr (by omega)
        have hfuel : n / 10 < fuel := by omega
        have hlen := ih (n / 10) (k - 1) hfuel (by omega) hdiv
        simp [toDecimalGo, h10, List.length_append]
        omega

lemma toDecimal_length_le (n : Nat) (h : n < 10 ^ 10) :
    (toDecimal n).length ≤ 10 :=
  toDecimalGo_length (n + 1) n 10 (Nat.lt_succ_self n) (by omega) h

/-- Claim C9: `log_count` never fails for this program's messages: every u32
count renders to at most 10 characters, so it fits the `String<10>`, and for
every message of length at most 22 the composition fits the 32-byte capacity,
so both `unwrap` calls are unreachable; all four call sites of the program
pass messages of length at most 22. -/
theorem log_count_total (message : List Char) (count : Nat)
    (hm : message.length ≤ 22) (hc : count < 2 ^ 32) :
    (toDecimal count).length ≤ 10 ∧
    log_count message count = some (message ++ toDecimal count) ∧
    (log_count_messages.all fun m => Nat.ble m.length 22) = true := by
  have hpow : (2 : Nat) ^ 32 < 10 ^ 10 := by norm_num
  have h10 : (toDecimal count).length ≤ 10 :=
    toDecimal_length_le count (by omega)
  refine ⟨h10, ?_, by decide⟩
  have hw : write_u32 count = Except.ok (toDecimal count) := by
    simp only [write_u32, if_neg (by omega : ¬ 10 < (toDecimal count).length)]
  have hsum : ([] : List Char).length +
      ([message, toDecimal count].map List.length).sum ≤ 32 := by
    simp only [List.length_nil, List.map_cons, List.map_nil, List.sum_cons,
      List.sum_nil]
    omega
  have hcomp := compose_go_ok 32 [message, toDecimal count] [] hsum
  simp [log_count, hw, compose_string, hcomp]

theorem log_count_total_witness :
    ("button pressed count: ".toList.length ≤ 22) ∧
    ((4294967295 : Nat) < 2 ^ 32) ∧
    log_count "button pressed count: ".toList 4294967295 =
      some ("button pressed count: ".toList ++ toDecimal 4294967295) :=
  ⟨by decide, by decide,
   (log_count_total "button pressed count: ".toList 4294967295
      (by decide) (by decide)).2.1⟩

/-- Modelled from the spec: the priority-ceiling lock protocol itself is
implemented by the RTIC framework (macro-generated code driving the hardware
interrupt mask), not by code under src/.  A lock entry records the ceiling of
the acquired resource and the system mask saved when it was acquired. -/
structure LockEntry where
  ceil : Nat
  saved : Nat

/-- Modelled from the spec: a preemption-stack frame — a task instance with
its static priority and the locks it currently holds, innermost first. -/
structure TaskFrame where
  prio : Nat
  held : List LockEntry

/-- Modelled from the spec: the single-core execution state — the preemption
stack (head = currently executing task) and the current system mask, the
effective priority at or below which preemption is disabled. -/
structure CeilSys where
  stack : List TaskFrame
  basepri : Nat

/-- Static ceiling of the display and timer resources: the maximum static
priority among their users button_a_action (1), button_b_action (2) and
idle (0). -/
def display_ceiling : Nat := 2

/-- Static ceiling of the gpiote resource, locked only by the priority-3
handler. -/
def gpiote_ceiling : Nat := 3

/-- Modelled from the spec: at startup the idle task (priority 0) runs with
the mask fully open. -/
def ceil_init : CeilSys := ⟨[⟨0, []⟩], 0⟩

/-- Modelled from the spec: the transitions of the ceiling protocol.  A task
can only start executing (preempt) when its priority exceeds both the system
mask and the priority of the task it preempts; taking a lock saves the mask
and raises it to the ceiling; releasing a lock unconditionally restores the
saved mask; a task returns only with no locks held. -/
inductive CeilStep : CeilSys → CeilSys → Prop where
  | arrive (s : CeilSys) (t : Nat) (hb : s.basepri < t)
      (hp : ∀ f, s.stack.head? = some f → f.prio < t) :
      CeilStep s ⟨⟨t, []⟩ :: s.stack, s.basepri⟩
  | lock (s : CeilSys) (f : TaskFrame) (rest : List TaskFrame) (c : Nat)
      (h1 : s.stack = f :: rest) :
      CeilStep s ⟨⟨f.prio, ⟨c, s.basepri⟩ :: f.held⟩ :: rest, max s.basepri c⟩
  | unlock (s : CeilSys) (f : TaskFrame) (rest : List TaskFrame)
      (e : LockEntry) (es : List LockEntry)
      (h1 : s.stack = f :: rest) (h2 : f.held = e :: es) :
      CeilStep s ⟨⟨f.prio, es⟩ :: rest, e.saved⟩
  | ret (s : CeilSys) (f : TaskFrame) (rest : List TaskFrame)
      (h1 : s.stack = f :: rest) (h2 : f.held = []) :
      CeilStep s ⟨rest, s.basepri⟩

/-- States of the ceiling protocol reachable from startup. -/
inductive CeilReach : CeilSys → Prop where
  | init : CeilReach ceil_init
  | step {s s' : CeilSys} : CeilReach s → CeilStep s s' → CeilReach s'

/-- All lock entries held anywhere on the preemption stack, most recently
acquired first. -/
def heldEntries : List TaskFrame → List LockEntry
  | [] => []
  | f :: rest => f.held ++ heldEntries rest

/-- Each saved mask dominates the ceilings of all locks acquired before it. -/
def Chain : List LockEntry → Prop
  | [] => True
  | e :: es => (∀ e2 ∈ es, e2.ceil ≤ e.saved) ∧ Chain es

/-- Every frame's priority exceeds the ceilings of all locks held by frames
strictly below it on the preemption stack. -/
def StackBelowOK : List TaskFrame → Prop
  | [] => True
  | f :: rest => (∀ e ∈ heldEntries rest, e.ceil < f.prio) ∧ StackBelowOK rest

/-- The protocol invariant: the mask dominates every held ceiling, saved
masks chain downwards, and preempting frames out-prioritize held ceilings. -/
def CeilInv (s : CeilSys) : Prop :=
  (∀ e ∈ heldEntries s.stack, e.ceil ≤ s.basepri) ∧
  Chain (heldEntries s.stack) ∧ StackBelowOK s.stack

lemma mem_heldEntries {fs : List TaskFrame} {f : TaskFrame} {e : LockEntry}
    (hf : f ∈ fs) (he : e ∈ f.held) : e ∈ heldEntries fs := by
  induction fs with
  | nil => cases hf
  | cons g gs ih =>
      show e ∈ g.held ++ heldEntries gs
      rcases List.mem_cons.mp hf with h | h
      · subst h; exact List.mem_append_left _ he
      · exact List.mem_append_right _ (ih h)

lemma ceilStep_inv {s s' : CeilSys} (h : CeilStep s s') (hinv : CeilInv s) :
    CeilInv s' := by
  obtain ⟨h1, h2, h3⟩ := hinv
  cases h with
  | arrive t hb hp =>
      exact ⟨h1, h2, fun e he => lt_of_le_of_lt (h1 e he) hb, h3⟩
  | lock f rest c hstack =>
      rw [hstack] at h1 h2 h3
      simp only [heldEntries] at h1 h2
      simp only [StackBelowOK] at h3
      refine ⟨?_, ?_, ?_⟩
      · intro e2 he2
        simp only [heldEntries, List.cons_append, List.mem_cons] at he2
        rcases he2 with he2 | he2
        · subst he2; exact le_max_right _ _
        · exact le_trans (h1 e2 he2) (le_max_left _ _)
      · exact ⟨fun e2 he2 => h1 e2 he2, h2⟩
      · exact h3
  | unlock f rest e es hstack hheld =>
      rw [hstack] at h1 h2 h3
      simp only [heldEntries] at h1 h2
      rw [hheld] at h1 h2
      simp only [List.cons_append] at h1 h2
      simp only [StackBelowOK] at h3
      refine ⟨?_, ?_, ?_⟩
      · intro e2 he2
        simp only [heldEntries] at he2
        exact h2.1 e2 he2
      · exact h2.2
      · exact h3
  | ret f rest hstack hheld =>
      rw [hstack] at h1 h2 h3
      simp only [heldEntries] at h1 h2
      rw [hheld] at h1 h2
      simp only [List.nil_append] at h1 h2
      simp only [StackBelowOK] at h3
      exact ⟨h1, h2, h3.2⟩

lemma ceilReach_inv {s : CeilSys} (h : CeilReach s) : CeilInv s := by
  induction h with
  | init =>
      refine ⟨?_, ?_, ?_, ?_⟩ <;>
        simp [ceil_init, heldEntries, Chain, StackBelowOK]
  | step _ hst ih => exact ceilStep_inv hst ih

/-- Modelled from the spec: the scoped acquisition provided by rtic's lock —
save the mask, run the body with the mask raised to the resource ceiling,
and unconditionally restore the saved mask on exit, whatever the body does. -/
def lock_scoped {α : Type} (c : Nat) (body : α → Nat → α) (st : α × Nat) :
    α × Nat :=
  (body st.1 (max st.2 c), st.2)

/-- Claim C7: in every reachable state of the ceiling protocol, while some
preempted task holds a lock with ceiling C, the currently executing task has
priority strictly greater than C (so no task of priority at most C executes
concurrently with the holder — in particular the display/timer critical
sections of the two button tasks and the idle loop are mutually exclusive);
and every exit path of a scoped lock restores the effective priority to its
pre-acquisition value. -/
theorem ceiling_protocol_spec :
    (∀ s : CeilSys, CeilReach s →
      ∀ g rest, s.stack = g :: rest →
        ∀ f ∈ rest, ∀ e ∈ f.held, e.ceil < g.prio) ∧
    (∀ (α : Type) (c : Nat) (body : α → Nat → α) (st : α × Nat),
      (lock_scoped c body st).2 = st.2 ∧ c ≤ max st.2 c) := by
  constructor
  · intro s hs g rest hstack f hf e he
    obtain ⟨-, -, h3⟩ := ceilReach_inv hs
    rw [hstack] at h3
    exact h3.1 e (mem_heldEntries hf he)
  · intro α c body st
    exact ⟨rfl, le_max_right _ _⟩

/-- A reachable demonstration state: idle (priority 0) holds the display and
timer lock (ceiling 2, saved mask 0). -/
def ceil_demo_mid : CeilSys := ⟨[⟨0, [⟨2, 0⟩]⟩], 2⟩

/-- A reachable demonstration state: the priority-3 handler preempts idle
while idle holds the display and timer lock. -/
def ceil_demo : CeilSys := ⟨[⟨3, []⟩, ⟨0, [⟨2, 0⟩]⟩], 2⟩

theorem ceiling_protocol_spec_witness :
    LockEntry.ceil ⟨display_ceiling, 0⟩ < TaskFrame.prio ⟨3, []⟩ ∧
    (lock_scoped display_ceiling (fun (u : Unit) _ => u) ((), 0)).2 = 0 ∧
    display_ceiling ≤ max 0 display_ceiling := by
  have hmid : CeilReach ceil_demo_mid :=
    CeilReach.step CeilReach.init (CeilStep.lock ceil_init ⟨0, []⟩ [] 2 rfl)
  have hdemo : CeilReach ceil_demo :=
    CeilReach.step hmid
      (CeilStep.arrive ceil_demo_mid 3 (by decide)
        (by intro f hf
            injection hf with h
            rw [← h]
            decide))
  have hpair :=
    ceiling_protocol_spec.2 Unit display_ceiling (fun u _ => u) ((), 0)
  exact ⟨ceiling_protocol_spec.1 ceil_demo hdemo ⟨3, []⟩ [⟨0, [⟨2, 0⟩]⟩] rfl
      ⟨0, [⟨2, 0⟩]⟩ (List.Mem.head _) ⟨2, 0⟩ (List.Mem.head _),
    hpair.1, hpair.2⟩

end RticDisplay
